import Mathlib

set_option maxRecDepth 8000

deriving instance DecidableEq for Except

namespace StandardsPull

/-!
Shallow embedding of `src/pull_standards.py` and `src/verify_standards.py`.

Conventions used throughout:
* Python strings are Lean `String`s; character-level operations work on
  `List Char` (`String.toList`).
* Filesystem paths are modelled by their POSIX rendering (the scripts build
  `pathlib` paths from POSIX-style constants and persist them with
  `as_posix()`).
* Fallible I/O (HTTP requests, file writes, JSON parsing) is modelled by
  oracle parameters (`String → Bool`, `Nat → Except String _`,
  `String → Option _`): the embedding is parametric in how the outside world
  behaves, and theorems quantify over those oracles.
* `str.lower()` / `str.strip()` are embedded in their ASCII fragment, which
  is the fragment the scripts rely on.
-/

/-- Embeds the character class `[a-z0-9]` used by the regexes in `slug`
(`src/pull_standards.py` lines 14-15; the text is already lowercased there). -/
def isLowerAlnum (c : Char) : Bool :=
  decide ((97 ≤ c.toNat ∧ c.toNat ≤ 122) ∨ (48 ≤ c.toNat ∧ c.toNat ≤ 57))

/-- Embeds Python `str.strip()` whitespace detection (ASCII fragment:
space, tab, newline, carriage return, vertical tab, form feed). -/
def isPyWs (c : Char) : Bool :=
  decide (c.toNat = 32 ∨ c.toNat = 9 ∨ c.toNat = 10 ∨ c.toNat = 13 ∨
    c.toNat = 11 ∨ c.toNat = 12)

/-- Embeds the character test for `-`, as used by `re.sub(r"-{2,}", "-", s)`
and `s.strip("-")` in `slug` (lines 15-16). -/
def isDash (c : Char) : Bool := decide (c = '-')

/-- Embeds Python `str.lower` on one character (ASCII fragment). -/
def pyLower (c : Char) : Char :=
  if 65 ≤ c.toNat ∧ c.toNat ≤ 90 then Char.ofNat (c.toNat + 32) else c

/-- Embeds Python `str.strip(chars)`: drop characters satisfying `p` from both
ends of the list. -/
def pyStrip (p : Char → Bool) (l : List Char) : List Char :=
  (l.dropWhile p).rdropWhile p

/-- Embeds `re.sub` of a one-character-class regex carrying a `+` (or `{2,}`)
quantifier: every maximal run of characters satisfying `p` is replaced by the
single character `r`.  The boolean argument records whether the previously
consumed character belonged to such a run. -/
def collapseAux (p : Char → Bool) (r : Char) : List Char → Bool → List Char
  | [], _ => []
  | c :: rest, inRun =>
    if p c then
      if inRun then collapseAux p r rest true
      else r :: collapseAux p r rest true
    else c :: collapseAux p r rest false

/-- Embeds `re.sub(r"<class>+", "<r>", s)` on a whole character list.  Note
`re.sub(r"-{2,}", "-", s)` is also of this shape: replacing every maximal run
of dashes by one dash leaves length-one runs unchanged. -/
def pySubRuns (p : Char → Bool) (r : Char) (l : List Char) : List Char :=
  collapseAux p r l false

/-- Embeds the normalization pipeline of `slug` (`src/pull_standards.py`
lines 13-16) on a character list: strip whitespace, lowercase, collapse runs
of non-alphanumerics to `-`, collapse runs of `-`, strip `-` from both ends. -/
def slugCore (l : List Char) : List Char :=
  pyStrip isDash
    (pySubRuns isDash '-'
      (pySubRuns (fun c => !(isLowerAlnum c)) '-'
        ((pyStrip isPyWs l).map pyLower)))

/-- Embeds `slug` (`src/pull_standards.py` lines 12-16): the normalized text,
or the fixed placeholder `"unnamed"` when nothing remains. -/
def slug (s : String) : String :=
  let core := slugCore s.toList
  if core = [] then "unnamed" else String.mk core

/-- Embeds `_short` (lines 18-19): `slug(s)[:n] if s else "unnamed"`.
The slice bound is taken as a natural number (the callers pass 40). -/
def _short (s : String) (n : Nat) : String :=
  if s = "" then "unnamed" else String.mk ((slug s).toList.take n)

/-- Embeds Python `str.lower()` on a whole string (ASCII fragment). -/
def lowerStr (s : String) : String := String.mk (s.toList.map pyLower)

/-- Embeds Python `str.strip()` on a whole string. -/
def pyStripStr (s : String) : String := String.mk (pyStrip isPyWs s.toList)

/-- Embeds `safe_filename` (lines 21-23):
`f"{_short(label, max_label)}__{set_id.lower()}.json"`. -/
def safe_filename (label : String) (set_id : String) (max_label : Nat) : String :=
  _short label max_label ++ "__" ++ lowerStr set_id ++ ".json"

/-- Embeds `_too_long` (lines 28-29): `len(os.fspath(p)) >= threshold`.
The source default for `threshold` is 240. -/
def _too_long (p : String) (threshold : Nat) : Bool :=
  decide (threshold ≤ p.length)

/-- Embeds `_fallback_path` (lines 31-33):
`OUT_ROOT / jur_slug_short / f"{set_id.lower()}.json"` with
`OUT_ROOT = "standards"`. -/
def _fallback_path (jur_slug_short : String) (set_id : String) : String :=
  "standards" ++ "/" ++ jur_slug_short ++ "/" ++ lowerStr set_id ++ ".json"

/-- Embeds `pathlib.Path.name`: the final path component (the characters
after the last `/`). -/
def baseName (p : String) : String :=
  String.mk ((p.toList.reverse.takeWhile (fun c => !(decide (c = '/')))).reverse)

/-- One entry of the fallback log (`log_fallback`, lines 97-100): the dict
literal built at lines 123-129 carries `reason`, `error`, `primary`,
`fallback` plus caller-supplied metadata pairs. -/
structure LogEntry where
  reason : String
  error : String
  primary : String
  fallback : String
  meta : List (String × String)
deriving DecidableEq

/-- Filesystem-and-log state touched by `write_json_with_fallback`: written
files (path, payload) with most recent writes first, and the append-only
fallback log.  The payload type is a parameter (the scripts write arbitrary
JSON values). -/
structure FS (α : Type) where
  files : List (String × α)
  flog : List LogEntry
deriving DecidableEq

/-- Embeds `write_text_json` (lines 35-37).  Whether the underlying
filesystem write succeeds is an oracle `writeOk` (directory creation and the
write itself can fail with `OSError`); on success the file holds `data`. -/
def write_text_json {α : Type} (writeOk : String → Bool) (path : String)
    (data : α) (fs : FS α) : Except String (FS α) :=
  if writeOk path then Except.ok { fs with files := (path, data) :: fs.files }
  else Except.error ("write failed: " ++ path)

/-- Embeds `log_fallback` (lines 97-100): append one entry to the log. -/
def log_fallback {α : Type} (entry : LogEntry) (fs : FS α) : FS α :=
  { fs with flog := fs.flog ++ [entry] }

/-- Embeds `write_json_with_fallback` (lines 108-132): try the primary path,
treating a too-long path as an immediate `OSError("path too long")`; on any
failure write to the fallback path and append one fallback-log entry; if that
also fails, raise a single combined `RuntimeError`. -/
def write_json_with_fallback {α : Type} (writeOk : String → Bool)
    (primary : String) (data : α) (fallback : String)
    (fallback_reason : String) (meta_for_log : List (String × String))
    (fs : FS α) : Except String (String × FS α) :=
  let firstTry : Except String (FS α) :=
    if _too_long primary 240 then Except.error "path too long"
    else write_text_json writeOk primary data fs
  match firstTry with
  | Except.ok fs1 => Except.ok (primary, fs1)
  | Except.error e =>
    match write_text_json writeOk fallback data fs with
    | Except.ok fs2 =>
      Except.ok (fallback,
        log_fallback
          { reason := fallback_reason, error := e, primary := primary,
            fallback := fallback, meta := meta_for_log } fs2)
    | Except.error e2 =>
      Except.error
        ("Failed writing both primary and fallback paths. Primary error: "
          ++ e ++ ". Fallback error: " ++ e2)

/-- One entry of the path index, as built at lines 212-222 and 253-263. -/
structure IndexEntry where
  set_id : String
  path : String
  jurisdiction_id : String
  jurisdiction_slug : String
  jurisdiction_title : String
  subject : String
  grade_label : String
  filename : String
  used_fallback : Bool
deriving DecidableEq

/-- Embeds `update_path_index` (lines 102-105): `idx[set_id] = entry`
(dict assignment overwrites any previous entry for that key). -/
def update_path_index (entry : IndexEntry) (idx : List (String × IndexEntry)) :
    List (String × IndexEntry) :=
  (entry.set_id, entry) :: idx.filter (fun kv => ¬ (kv.1 = entry.set_id))

/-- Jurisdiction-level values in scope when `main` processes one standard set
(lines 160-170): `jur_id`, `jur_slug_short = slug(jur_title)[:40]`,
`jur_title`. -/
structure JurCtx where
  jur_id : String
  jur_slug_short : String
  jur_title : String

/-- A standard-set summary as read by `main` (lines 195-201): the optional
fields the driver actually uses. A `none` models an absent key. -/
structure SetSummary where
  id : Option String
  subject : Option String
  educationLevels : Option (List String)
  title : Option String

/-- Embeds Python `x or default` on an optional string (`None` and `""` are
falsy). -/
def pyOr (o : Option String) (default : String) : String :=
  match o with
  | some v => if v = "" then default else v
  | none => default

/-- Embeds line 195: `set_id = str(s.get("id") or "").strip()`. -/
def computed_set_id (s : SetSummary) : String := pyStripStr (pyOr s.id "")

/-- Embeds line 199: `subject = s.get("subject") or "unspecified"`. -/
def computed_subject (s : SetSummary) : String := pyOr s.subject "unspecified"

/-- Embeds lines 200-201: `grade_label` is the `-`-join of the (nonempty)
education levels, else `s.get("title") or set_id`. -/
def computed_grade_label (s : SetSummary) : String :=
  match s.educationLevels with
  | some (l :: ls) => String.intercalate "-" (l :: ls)
  | _ => pyOr s.title (computed_set_id s)

/-- Embeds line 206: `out_name = safe_filename(grade_label, set_id, 40)`. -/
def computed_out_name (s : SetSummary) : String :=
  safe_filename (computed_grade_label s) (computed_set_id s) 40

/-- Embeds lines 203-207: the primary output file
`OUT_ROOT / jur_slug_short / subject_slug_short / out_name` as POSIX text. -/
def computed_out_file (ctx : JurCtx) (s : SetSummary) : String :=
  "standards" ++ "/" ++ ctx.jur_slug_short ++ "/" ++
    _short (computed_subject s) 40 ++ "/" ++ computed_out_name s

/-- Result of running the per-set body of `main` once (the loop body at
lines 194-263): whether `get_standard_set` was invoked, the filesystem/log
state afterwards, and the entry handed to `update_path_index` (if any). -/
structure SetStep (α : Type) where
  didFetch : Bool
  fs : FS α
  indexEntry : Option IndexEntry
deriving DecidableEq

/-- Embeds the per-set body of `main` (lines 194-263).  `existsF` is the
oracle for `out_file.exists()`, `fetchRes` is the outcome
`get_standard_set(set_id, key)` would have, and `writeOk` drives the writes
inside `write_json_with_fallback`. -/
def processSet {α : Type} (ctx : JurCtx) (s : SetSummary) (overwrite : Bool)
    (existsF : String → Bool) (fetchRes : Except String α)
    (writeOk : String → Bool) (fs : FS α) : SetStep α :=
  let set_id := computed_set_id s
  if set_id = "" then ⟨false, fs, none⟩
  else
    let subject := computed_subject s
    let grade_label := computed_grade_label s
    let out_name := computed_out_name s
    let out_file := computed_out_file ctx s
    let fallback_file := _fallback_path ctx.jur_slug_short set_id
    if existsF out_file && !overwrite then
      ⟨false, fs, some
        ⟨set_id, out_file, ctx.jur_id, ctx.jur_slug_short, ctx.jur_title,
          subject, grade_label, out_name, false⟩⟩
    else
      match fetchRes with
      | Except.error _ => ⟨true, fs, none⟩
      | Except.ok full =>
        match write_json_with_fallback writeOk out_file full fallback_file
            "standard_set_path_too_long_or_write_error"
            [("set_id", set_id), ("jurisdiction_id", ctx.jur_id),
              ("jurisdiction_title", ctx.jur_title), ("subject", subject),
              ("grade_label", grade_label)] fs with
        | Except.error _ => ⟨true, fs, none⟩
        | Except.ok (written_path, fs2) =>
          ⟨true, fs2, some
            ⟨set_id, written_path, ctx.jur_id, ctx.jur_slug_short,
              ctx.jur_title, subject, grade_label, baseName written_path,
              decide (¬ written_path = out_file)⟩⟩

/-- The JSON payloads returned by `get_json`, abstracted to the only
distinction the accessors inspect: `isinstance(payload, list)`.  A JSON array
is `list` (elements abstracted), anything else is `other`. -/
inductive Payload where
  | list (xs : List String)
  | other (tag : String)
deriving DecidableEq

/-- Embeds `list_jurisdictions` (lines 74-76): call `get_json` on
`"/jurisdictions"` and coerce a non-list payload to `[]`.  `fetchJson` is the
behaviour of `get_json` (retry wrapper plus envelope unwrap) per endpoint
path. -/
def list_jurisdictions (fetchJson : String → Except String Payload) :
    Except String Payload :=
  match fetchJson "/jurisdictions" with
  | Except.ok p =>
    Except.ok (match p with
      | Payload.list _ => p
      | Payload.other _ => Payload.list [])
  | Except.error e => Except.error e

/-- Embeds `get_jurisdiction` (lines 78-79): a single `get_json` call. -/
def get_jurisdiction (fetchJson : String → Except String Payload)
    (jur_id : String) : Except String Payload :=
  fetchJson ("/jurisdictions/" ++ jur_id)

/-- Embeds `get_standard_set` (lines 81-82): a single `get_json` call. -/
def get_standard_set (fetchJson : String → Except String Payload)
    (set_id : String) : Except String Payload :=
  fetchJson ("/standard_sets/" ++ set_id)

/-- The POSIX rendering of `PATH_INDEX_FILE` (line 8). -/
def PATH_INDEX_FILE : String := "standards/_index/standard_set_paths.json"

/-- The rename target `PATH_INDEX_FILE.with_suffix(".json.bak")` (line 90). -/
def PATH_INDEX_BAK : String := "standards/_index/standard_set_paths.json.bak"

/-- Embeds `load_path_index` (lines 85-91).  The disk is a map from path to
file text; `parse` is the JSON parser (`json.loads`), `none` modelling any
parse/read exception.  Returns the loaded index and the disk afterwards: on
parse failure the corrupt file is renamed to `PATH_INDEX_BAK` and the empty
index is returned. -/
def load_path_index {α : Type} (parse : String → Option (List (String × α)))
    (disk : List (String × String)) :
    List (String × α) × List (String × String) :=
  match disk.lookup PATH_INDEX_FILE with
  | some content =>
    match parse content with
    | some idx => (idx, disk)
    | none =>
      ([], (PATH_INDEX_BAK, content)
        :: disk.filter (fun kv => ¬ (kv.1 = PATH_INDEX_FILE)))
  | none => ([], disk)

/-- Observable trace of one `with_retries` run (lines 50-65): the final
outcome (`Except.error` models the exception propagating out of the last
attempt), how many times the request function was invoked, and the durations
of the `time.sleep` calls between consecutive attempts, in order. -/
structure RetryTrace where
  result : Except String String
  calls : Nat
  sleeps : List Rat
deriving DecidableEq

/-- Embeds the loop `for attempt in range(attempt, retries + 1)` inside
`with_retries` (lines 52-65).  `fn attempt` is the outcome of the
`attempt`-th invocation (`Except.error` covers the three retryable exception
classes).  The fuel argument counts the remaining loop iterations; running
out of fuel is the `assert False` after the loop (reachable only when
`retries = 0`, where the loop body never runs). -/
def retryFrom (fn : Nat → Except String String) (backoff : Rat)
    (retries : Nat) : Nat → Nat → RetryTrace
  | 0, _ => ⟨Except.error "AssertionError", 0, []⟩
  | fuel + 1, attempt =>
    match fn attempt with
    | Except.ok r => ⟨Except.ok r, 1, []⟩
    | Except.error e =>
      if attempt < retries then
        let t := retryFrom fn backoff retries fuel (attempt + 1)
        ⟨t.result, t.calls + 1, backoff * (attempt : Rat) :: t.sleeps⟩
      else ⟨Except.error e, 1, []⟩

/-- Embeds `with_retries` (lines 50-65): attempts start at 1 and the loop
runs at most `retries` times.  The source defaults are `retries = 3`,
`backoff = 0.6`. -/
def with_retries (fn : Nat → Except String String) (retries : Nat)
    (backoff : Rat) : RetryTrace :=
  retryFrom fn backoff retries retries 1

/-- One element of a persisted per-jurisdiction set-summary listing file, as
read by `src/verify_standards.py` lines 22-24: only the optional `"id"` key
is inspected. -/
structure SummaryRec where
  id : Option String

/-- Embeds `set.add` for the accumulating `expected_ids` set, keeping first
insertion order (only membership and cardinality are ever used). -/
def insertNew (x : String) (acc : List String) : List String :=
  if x ∈ acc then acc else acc ++ [x]

/-- Embeds `src/verify_standards.py` lines 17-24: union the `"id"` fields of
every record of every `standard_sets_*.json` file. -/
def collectExpectedIds (jurFiles : List (List SummaryRec)) : List String :=
  jurFiles.foldl
    (fun acc sets =>
      sets.foldl
        (fun acc2 r =>
          match r.id with
          | some i => insertNew i acc2
          | none => acc2) acc) []

/-- The figures printed by the verification pass (lines 30-38). -/
structure VerifyReport where
  jurisdictions_indexed : Nat
  expected_total : Nat
  saved_total : Nat
  coverage_percent : Rat
  missing : List String

/-- Embeds the summary computation of `src/verify_standards.py`
(lines 26-38): `saved_ids = path_index.keys()`, `expected_ids` from the
listing files, `missing = expected - saved`, and the coverage line
`len(saved_ids) / len(expected_ids) * 100`.  Python raises
`ZeroDivisionError` when `expected_ids` is empty, modelled as
`Except.error`. -/
def verify_summary (savedIds : List String)
    (jurFiles : List (List SummaryRec)) : Except String VerifyReport :=
  let expected := collectExpectedIds jurFiles
  let missing := expected.filter (fun i => !(savedIds.contains i))
  if expected.length = 0 then
    Except.error "ZeroDivisionError: division by zero"
  else
    Except.ok
      ⟨jurFiles.length, expected.length, savedIds.length,
        (savedIds.length : Rat) / (expected.length : Rat) * 100, missing⟩

/-- The no-two-adjacent-dashes property of slug output. -/
def NoDD (l : List Char) : Prop :=
  List.Chain' (fun a b => ¬ (a = '-' ∧ b = '-')) l

/-- The shape invariant of `slug` output: nonempty, only lowercase
alphanumerics and dashes, no two adjacent dashes, and no dash at either
end. -/
def GoodSlug (l : List Char) : Prop :=
  l ≠ [] ∧ (∀ c ∈ l, isLowerAlnum c = true ∨ c = '-') ∧ NoDD l ∧
    l.head? ≠ some '-' ∧ l.getLast? ≠ some '-'

/-! ### List helper lemmas -/

theorem dw_subset {p : Char → Bool} :
    ∀ {l : List Char} {c : Char}, c ∈ l.dropWhile p → c ∈ l := by
  intro l
  induction l with
  | nil => intro c h; simp at h
  | cons a t ih =>
    intro c h
    by_cases hp : p a = true
    · rw [List.dropWhile_cons, if_pos hp] at h
      exact List.mem_cons_of_mem a (ih h)
    · rw [List.dropWhile_cons, if_neg (by simp [hp])] at h
      exact h

theorem dw_head_not {p : Char → Bool} :
    ∀ {l : List Char} {c : Char}, (l.dropWhile p).head? = some c → p c = false := by
  intro l
  induction l with
  | nil => intro c h; simp at h
  | cons a t ih =>
    intro c h
    by_cases hp : p a = true
    · rw [List.dropWhile_cons, if_pos hp] at h
      exact ih h
    · rw [List.dropWhile_cons, if_neg (by simp [hp])] at h
      simp only [List.head?_cons, Option.some.injEq] at h
      subst h
      simpa using hp

theorem dw_eq_self {p : Char → Bool} {l : List Char}
    (h : ∀ c, l.head? = some c → p c = false) : l.dropWhile p = l := by
  cases l with
  | nil => rfl
  | cons a t =>
    rw [List.dropWhile_cons, if_neg]
    simp [h a rfl]

theorem dw_chain {R : Char → Char → Prop} {p : Char → Bool} :
    ∀ {l : List Char}, List.Chain' R l → List.Chain' R (l.dropWhile p) := by
  intro l
  induction l with
  | nil => intro h; simp
  | cons a t ih =>
    intro h
    by_cases hp : p a = true
    · rw [List.dropWhile_cons, if_pos hp]
      exact ih h.tail
    · rw [List.dropWhile_cons, if_neg (by simp [hp])]
      exact h

theorem rdw_subset {p : Char → Bool} {l : List Char} {c : Char}
    (h : c ∈ l.rdropWhile p) : c ∈ l := by
  obtain ⟨t, ht⟩ := List.rdropWhile_prefix p l
  rw [← ht]
  exact List.mem_append_left t h

theorem rdw_head {p : Char → Bool} {l : List Char} {c : Char}
    (h : (l.rdropWhile p).head? = some c) : l.head? = some c := by
  obtain ⟨t, ht⟩ := List.rdropWhile_prefix p l
  cases hrd : l.rdropWhile p with
  | nil => rw [hrd] at h; simp at h
  | cons a u =>
    rw [hrd] at h ht
    simp only [List.head?_cons, Option.some.injEq] at h
    rw [← ht, List.cons_append, List.head?_cons, h]

theorem rdw_getLast_not {p : Char → Bool} {l : List Char} {c : Char}
    (h : (l.rdropWhile p).getLast? = some c) : p c = false := by
  rw [List.rdropWhile, List.getLast?_reverse] at h
  exact dw_head_not h

theorem rdw_eq_self {p : Char → Bool} {l : List Char}
    (h : ∀ c, l.getLast? = some c → p c = false) : l.rdropWhile p = l := by
  rw [List.rdropWhile_eq_self_iff]
  intro hl
  have := h (l.getLast hl) (List.getLast?_eq_getLast l hl)
  simp [this]

theorem rdw_chain {R : Char → Char → Prop} {p : Char → Bool}
    (hsym : ∀ a b, R a b → R b a) {l : List Char}
    (h : List.Chain' R l) : List.Chain' R (l.rdropWhile p) := by
  rw [List.rdropWhile]
  have h1 : List.Chain' (flip R) l := h.imp hsym
  have h2 : List.Chain' R l.reverse := List.chain'_reverse.mpr h1
  have h3 : List.Chain' R (l.reverse.dropWhile p) := dw_chain h2
  exact List.chain'_reverse.mpr (h3.imp hsym)

theorem strip_subset {p : Char → Bool} {l : List Char} {c : Char}
    (h : c ∈ pyStrip p l) : c ∈ l :=
  dw_subset (rdw_subset h)

theorem strip_head_not {p : Char → Bool} {l : List Char} {c : Char}
    (h : (pyStrip p l).head? = some c) : p c = false :=
  dw_head_not (rdw_head h)

theorem strip_getLast_not {p : Char → Bool} {l : List Char} {c : Char}
    (h : (pyStrip p l).getLast? = some c) : p c = false :=
  rdw_getLast_not h

theorem strip_chain {R : Char → Char → Prop} {p : Char → Bool}
    (hsym : ∀ a b, R a b → R b a) {l : List Char}
    (h : List.Chain' R l) : List.Chain' R (pyStrip p l) :=
  rdw_chain hsym (dw_chain h)

theorem strip_eq_self {p : Char → Bool} {l : List Char}
    (h1 : ∀ c, l.head? = some c → p c = false)
    (h2 : ∀ c, l.getLast? = some c → p c = false) : pyStrip p l = l := by
  rw [pyStrip, dw_eq_self h1, rdw_eq_self h2]

theorem map_id_of_fix {f : Char → Char} :
    ∀ {l : List Char}, (∀ c ∈ l, f c = c) → l.map f = l := by
  intro l
  induction l with
  | nil => intro _; rfl
  | cons a t ih =>
    intro h
    simp only [List.map_cons, h a (List.mem_cons_self a t),
      ih (fun c hc => h c (List.mem_cons_of_mem a hc))]

/-! ### Character facts -/

theorem pyLower_fix {c : Char} (h : isLowerAlnum c = true ∨ c = '-') :
    pyLower c = c := by
  rcases h with h | h
  · simp only [isLowerAlnum, decide_eq_true_eq] at h
    rw [pyLower, if_neg]
    omega
  · subst h
    decide

theorem not_ws_of_good {c : Char} (h : isLowerAlnum c = true ∨ c = '-') :
    isPyWs c = false := by
  simp only [isPyWs, decide_eq_false_iff_not]
  rcases h with h | h
  · simp only [isLowerAlnum, decide_eq_true_eq] at h
    omega
  · subst h
    decide

theorem not_dash_of_alnum {c : Char} (h : isLowerAlnum c = true) : c ≠ '-' := by
  intro hc
  subst hc
  simp [isLowerAlnum] at h

theorem isDash_false_iff {c : Char} : isDash c = false ↔ c ≠ '-' := by
  simp [isDash]

/-! ### Facts about `collapseAux` (the `re.sub` run collapser) -/

theorem collapseAux_cons_pos_true {p : Char → Bool} {r a : Char}
    {t : List Char} (hp : p a = true) :
    collapseAux p r (a :: t) true = collapseAux p r t true := by
  simp [collapseAux, hp]

theorem collapseAux_cons_pos_false {p : Char → Bool} {r a : Char}
    {t : List Char} (hp : p a = true) :
    collapseAux p r (a :: t) false = r :: collapseAux p r t true := by
  simp [collapseAux, hp]

theorem collapseAux_cons_neg {p : Char → Bool} {r a : Char}
    {t : List Char} (hp : ¬ p a = true) (b : Bool) :
    collapseAux p r (a :: t) b = a :: collapseAux p r t false := by
  simp [collapseAux, hp]

theorem mem_collapseAux {p : Char → Bool} {r : Char} :
    ∀ {l : List Char} {b : Bool} {c : Char},
      c ∈ collapseAux p r l b → c = r ∨ (p c = false ∧ c ∈ l) := by
  intro l
  induction l with
  | nil => intro b c h; simp [collapseAux] at h
  | cons a t ih =>
    intro b c h
    by_cases hp : p a = true
    · cases b with
      | true =>
        rw [collapseAux_cons_pos_true hp] at h
        rcases ih h with h1 | ⟨h2, h3⟩
        · exact Or.inl h1
        · exact Or.inr ⟨h2, List.mem_cons_of_mem a h3⟩
      | false =>
        rw [collapseAux_cons_pos_false hp, List.mem_cons] at h
        rcases h with h1 | h1
        · exact Or.inl h1
        · rcases ih h1 with h2 | ⟨h3, h4⟩
          · exact Or.inl h2
          · exact Or.inr ⟨h3, List.mem_cons_of_mem a h4⟩
    · rw [collapseAux_cons_neg hp, List.mem_cons] at h
      rcases h with h1 | h1
      · refine Or.inr ⟨?_, ?_⟩
        · rw [h1]; revert hp; cases p a <;> simp
        · rw [h1]; exact List.mem_cons_self a t
      · rcases ih h1 with h2 | ⟨h3, h4⟩
        · exact Or.inl h2
        · exact Or.inr ⟨h3, List.mem_cons_of_mem a h4⟩

theorem chain_collapseAux {p : Char → Bool}
    (hnp : ∀ c, p c = false → c ≠ '-') :
    ∀ (l : List Char) (b : Bool),
      NoDD (collapseAux p '-' l b) ∧
        (b = true → ∀ c, (collapseAux p '-' l b).head? = some c → c ≠ '-') := by
  intro l
  induction l with
  | nil =>
    intro b
    exact ⟨List.chain'_nil, fun _ c h => by simp [collapseAux] at h⟩
  | cons a t ih =>
    intro b
    by_cases hp : p a = true
    · cases b with
      | true =>
        rw [collapseAux_cons_pos_true hp]
        exact ⟨(ih true).1, fun _ => (ih true).2 rfl⟩
      | false =>
        rw [collapseAux_cons_pos_false hp]
        constructor
        · rw [NoDD, List.chain'_cons']
          refine ⟨?_, (ih true).1⟩
          intro y hy hcon
          exact (ih true).2 rfl y hy hcon.2
        · intro hb
          cases hb
    · have hpf : p a = false := by revert hp; cases p a <;> simp
      rw [collapseAux_cons_neg hp]
      constructor
      · rw [NoDD, List.chain'_cons']
        refine ⟨?_, (ih false).1⟩
        intro y _ hcon
        exact (hnp a hpf) hcon.1
      · intro _ c hc
        have hac : a = c := by simpa using hc
        rw [← hac]
        exact hnp a hpf

theorem collapseAux_fix {p : Char → Bool} :
    ∀ {l : List Char} {b : Bool},
      (∀ c ∈ l, p c = true → c = '-') → NoDD l →
      (b = true → ∀ c, l.head? = some c → p c = false) →
      collapseAux p '-' l b = l := by
  intro l
  induction l with
  | nil => intro b _ _ _; cases b <;> rfl
  | cons a t ih =>
    intro b hmem hchain hhead
    by_cases hp : p a = true
    · have ha : a = '-' := hmem a (List.mem_cons_self a t) hp
      cases b with
      | true => exact absurd (hhead rfl a rfl) (by simp [hp])
      | false =>
        rw [collapseAux_cons_pos_false hp, ha]
        congr 1
        apply ih (fun c hc => hmem c (List.mem_cons_of_mem a hc)) hchain.tail
        intro _ c hc
        rw [NoDD, List.chain'_cons'] at hchain
        have hRc := hchain.1 c hc
        by_contra hpc
        have : c = '-' :=
          hmem c (List.mem_cons_of_mem a (List.mem_of_mem_head? hc))
            (by revert hpc; cases p c <;> simp)
        exact hRc ⟨ha, this⟩
    · rw [collapseAux_cons_neg hp]
      congr 1
      apply ih (fun c hc => hmem c (List.mem_cons_of_mem a hc)) hchain.tail
      intro hb
      cases hb

/-! ### The slug invariant -/

theorem noDD_symm :
    ∀ a b : Char, ¬ (a = '-' ∧ b = '-') → ¬ (b = '-' ∧ a = '-') :=
  fun _ _ h hc => h ⟨hc.2, hc.1⟩

theorem goodSlug_unnamed : GoodSlug ("unnamed".toList) := by
  have h : "unnamed".toList = ['u', 'n', 'n', 'a', 'm', 'e', 'd'] := rfl
  rw [GoodSlug, NoDD, h]
  refine ⟨by simp, ?_, ?_, by simp, by simp⟩
  · intro c hc
    simp only [List.mem_cons, List.not_mem_nil, or_false] at hc
    rcases hc with rfl | rfl | rfl | rfl | rfl | rfl | rfl <;> left <;> decide
  · simp only [List.chain'_cons, List.chain'_singleton, and_true]
    refine ⟨?_, ?_, ?_, ?_, ?_, ?_⟩ <;> decide

theorem mem_slugCore {l : List Char} {c : Char} (h : c ∈ slugCore l) :
    isLowerAlnum c = true ∨ c = '-' := by
  rw [slugCore] at h
  have h3 := strip_subset h
  rcases mem_collapseAux (p := isDash) h3 with h4 | ⟨_, h4⟩
  · exact Or.inr h4
  · rcases mem_collapseAux (p := fun c => !(isLowerAlnum c)) h4 with h5 | ⟨h5, _⟩
    · exact Or.inr h5
    · left
      revert h5
      cases isLowerAlnum c <;> simp

theorem noDD_slugCore (l : List Char) : NoDD (slugCore l) := by
  rw [slugCore]
  apply strip_chain noDD_symm
  exact (chain_collapseAux (fun c hc => isDash_false_iff.mp hc) _ false).1

theorem head_slugCore {l : List Char} {c : Char}
    (h : (slugCore l).head? = some c) : c ≠ '-' := by
  rw [slugCore] at h
  exact isDash_false_iff.mp (strip_head_not h)

theorem getLast_slugCore {l : List Char} {c : Char}
    (h : (slugCore l).getLast? = some c) : c ≠ '-' := by
  rw [slugCore] at h
  exact isDash_false_iff.mp (strip_getLast_not h)

theorem goodSlug_slug (s : String) : GoodSlug ((slug s).toList) := by
  rw [slug]
  by_cases hc : slugCore s.toList = []
  · simp only [hc, if_pos rfl]
    exact goodSlug_unnamed
  · simp only [if_neg hc]
    have htl : (String.mk (slugCore s.toList)).toList = slugCore s.toList := rfl
    rw [htl]
    refine ⟨hc, fun c h => mem_slugCore h, noDD_slugCore _, ?_, ?_⟩
    · intro h
      exact head_slugCore h rfl
    · intro h
      exact getLast_slugCore h rfl

theorem slug_fix {s : String} (h : GoodSlug s.toList) : slug s = s := by
  obtain ⟨hne, hmem, hchain, hhead, hlast⟩ := h
  have hws : ∀ c, s.toList.head? = some c → isPyWs c = false := by
    intro c hc
    exact not_ws_of_good (hmem c (List.mem_of_mem_head? hc))
  have hws2 : ∀ c, s.toList.getLast? = some c → isPyWs c = false := by
    intro c hc
    have : c ∈ s.toList := by
      have : c ∈ s.toList.reverse := List.mem_of_mem_head? (by
        rw [List.head?_reverse]; exact hc)
      simpa using this
    exact not_ws_of_good (hmem c this)
  have e1 : pyStrip isPyWs s.toList = s.toList := strip_eq_self hws hws2
  have e2 : (s.toList.map pyLower) = s.toList :=
    map_id_of_fix (fun c hc => pyLower_fix (hmem c hc))
  have e3 : pySubRuns (fun c => !(isLowerAlnum c)) '-' s.toList = s.toList := by
    rw [pySubRuns]
    apply collapseAux_fix _ hchain
    · intro hb
      cases hb
    · intro c hc hpc
      rcases hmem c hc with h1 | h1
      · rw [h1] at hpc; cases hpc
      · exact h1
  have e4 : pySubRuns isDash '-' s.toList = s.toList := by
    rw [pySubRuns]
    apply collapseAux_fix _ hchain
    · intro hb
      cases hb
    · intro c _ hpc
      simpa [isDash] using hpc
  have e5 : pyStrip isDash s.toList = s.toList := by
    apply strip_eq_self
    · intro c hc
      rw [isDash_false_iff]
      intro hd
      rw [hd] at hc
      exact hhead hc
    · intro c hc
      rw [isDash_false_iff]
      intro hd
      rw [hd] at hc
      exact hlast hc
  have hcore : slugCore s.toList = s.toList := by
    rw [slugCore, e1, e2, e3, e4, e5]
  rw [slug, hcore, if_neg hne]
  rfl

/-! ### Claim theorems: slug shape (C9), slug idempotence (C10) -/

/-- C9: for every input string, `slug` returns a string that contains only
lowercase alphanumeric characters and single `-` separators (no two `-`
adjacent), neither starts nor ends with `-`, and is never empty; when
normalization leaves nothing, it returns the fixed placeholder
`"unnamed"`. -/
theorem claim9_slug_shape (s : String) :
    slug s ≠ "" ∧
      (∀ c ∈ (slug s).toList, isLowerAlnum c = true ∨ c = '-') ∧
      NoDD ((slug s).toList) ∧
      (slug s).toList.head? ≠ some '-' ∧
      (slug s).toList.getLast? ≠ some '-' ∧
      (slugCore s.toList = [] → slug s = "unnamed") := by
  obtain ⟨h1, h2, h3, h4, h5⟩ := goodSlug_slug s
  refine ⟨?_, h2, h3, h4, h5, ?_⟩
  · intro he
    apply h1
    rw [he]
    rfl
  · intro hc
    have hc' : slugCore s.data = [] := hc
    simp [slug, hc']

/-- C9 witness: at the concrete input `""` normalization leaves nothing and
the placeholder is returned. -/
theorem claim9_witness : slug "" = "unnamed" :=
  (claim9_slug_shape "").2.2.2.2.2 rfl

/-- C10: `slug` is idempotent: applying it to any of its own outputs returns
that output unchanged. -/
theorem claim10_slug_idempotent (s : String) : slug (slug s) = slug s :=
  slug_fix (goodSlug_slug s)

/-! ### Claim C2: length bound of `_short` -/

/-- C2 counterexample: the claim `len(shortSlug(text, maxLen)) <= maxLen`
fails at `text = ""`, `maxLen = 0`: the empty string is falsy in Python, so
`_short` returns the placeholder `"unnamed"` of length 7. -/
theorem claim2_cex : ¬ ((_short "" 0).length ≤ 0) := by decide

/-- C2 (amended): for every nonempty input string and every `maxLen ≥ 0`
(naturals), `_short` returns a string of length at most `maxLen`; for the
empty (falsy) input it returns the fixed placeholder `"unnamed"` whatever
`maxLen` is. -/
theorem claim2_short_len (s : String) (n : Nat) (h : s ≠ "") :
    (_short s n).length ≤ n ∧ ∀ m : Nat, _short "" m = "unnamed" := by
  constructor
  · rw [_short, if_neg h]
    show ((slug s).toList.take n).length ≤ n
    exact List.length_take_le n (slug s).toList
  · intro m
    rfl

/-- C2 witness: the amended bound at a concrete nonempty input. -/
theorem claim2_witness :
    (_short "Common Core State Standards" 5).length ≤ 5 ∧
      _short "" 0 = "unnamed" := by
  have h := claim2_short_len "Common Core State Standards" 5 (by decide)
  exact ⟨h.1, h.2 0⟩

/-! ### Claim C6: monotonicity of `_too_long` -/

/-- C6 counterexample: the claim is false as stated.  Take
`B = 239` copies of `'a'` and its prefix-extension `A = B ++ "x"` (one more
character): `A` is flagged too long at threshold 240 but `B` is not. -/
theorem claim6_cex :
    (String.mk (List.replicate 239 'a')).length <
        ((String.mk (List.replicate 239 'a')) ++ "x").length ∧
      _too_long ((String.mk (List.replicate 239 'a')) ++ "x") 240 = true ∧
      _too_long (String.mk (List.replicate 239 'a')) 240 = false := by
  have hB : (String.mk (List.replicate 239 'a')).length = 239 := by
    show (List.replicate 239 'a').length = 239
    simp
  have hA : ((String.mk (List.replicate 239 'a')) ++ "x").length = 240 := by
    rw [String.length_append, hB]
    rfl
  refine ⟨?_, ?_, ?_⟩
  · rw [hA, hB]
    omega
  · rw [_too_long, hA]
    rfl
  · rw [_too_long, hB]
    rfl

/-- C6 (amended): `_too_long` is monotonic in the direction the code
realizes: if the shorter path `B` is flagged too long at the fixed
threshold, then every prefix-extension `B ++ suffixPart` (which has at least
as many characters) is flagged too long as well. -/
theorem claim6_too_long_mono (B suffixPart : String)
    (h : _too_long B 240 = true) : _too_long (B ++ suffixPart) 240 = true := by
  simp only [_too_long, decide_eq_true_eq] at h ⊢
  rw [String.length_append]
  omega

/-- C6 witness: the amended monotonicity applied at a concrete too-long
path. -/
theorem claim6_witness :
    _too_long (String.mk (List.replicate 240 'b') ++ "/x.json") 240 = true := by
  apply claim6_too_long_mono
  simp only [_too_long, decide_eq_true_eq]
  show 240 ≤ (List.replicate 240 'b').length
  simp

/-! ### Claim C1: verification pass on an empty expected set -/

/-- C1: the claim is right and the code is wrong.  With no per-jurisdiction
listing files the expected set is empty, and for every path index the
verification pass does not complete with a 0%/no-data report: the coverage
line `len(saved_ids) / len(expected_ids) * 100` raises `ZeroDivisionError`. -/
theorem claim1_verify_divzero (savedIds : List String) :
    verify_summary savedIds [] =
      Except.error "ZeroDivisionError: division by zero" := rfl

/-! ### Claim C5: the three thin accessors -/

/-- C5 counterexample: `list_jurisdictions` does not return exactly what
`fetchJson` returns: when the payload is not a list it is replaced by the
empty list (`payload if isinstance(payload, list) else []`). -/
theorem claim5_cex :
    list_jurisdictions (fun _ => Except.ok (Payload.other "obj")) ≠
      Except.ok (Payload.other "obj") := by decide

/-- C5 (amended): the two single-record accessors return exactly the value
`fetchJson` returns for their endpoint and propagate failures unchanged;
`list_jurisdictions` also propagates failures unchanged and returns the
payload exactly when it is a list, but coerces a non-list payload to the
empty list. -/
theorem claim5_accessors (fetchJson : String → Except String Payload)
    (jur_id set_id : String) :
    get_jurisdiction fetchJson jur_id = fetchJson ("/jurisdictions/" ++ jur_id) ∧
      get_standard_set fetchJson set_id =
        fetchJson ("/standard_sets/" ++ set_id) ∧
      (∀ e, fetchJson "/jurisdictions" = Except.error e →
        list_jurisdictions fetchJson = Except.error e) ∧
      (∀ xs, fetchJson "/jurisdictions" = Except.ok (Payload.list xs) →
        list_jurisdictions fetchJson = Except.ok (Payload.list xs)) ∧
      (∀ tag, fetchJson "/jurisdictions" = Except.ok (Payload.other tag) →
        list_jurisdictions fetchJson = Except.ok (Payload.list [])) := by
  refine ⟨rfl, rfl, ?_, ?_, ?_⟩ <;> intro x h <;> simp [list_jurisdictions, h]

/-- C5 witness: the amended behaviour at a concrete endpoint oracle. -/
theorem claim5_witness :
    get_jurisdiction
        (fun p => if p = "/jurisdictions"
          then Except.ok (Payload.list ["j1"]) else Except.error "boom") "X" =
      Except.error "boom" ∧
    list_jurisdictions
        (fun p => if p = "/jurisdictions"
          then Except.ok (Payload.list ["j1"]) else Except.error "boom") =
      Except.ok (Payload.list ["j1"]) := by
  have h := claim5_accessors
    (fun p => if p = "/jurisdictions"
      then Except.ok (Payload.list ["j1"]) else Except.error "boom") "X" "Y"
  constructor
  · rw [h.1]
    decide
  · exact h.2.2.2.1 ["j1"] (by decide)

/-! ### Claim C8: corrupt-index recovery in `load_path_index` -/

theorem lookup_filter_ne {β : Type} (k : String) :
    ∀ l : List (String × β),
      (l.filter (fun kv => ¬ (kv.1 = k))).lookup k = none := by
  intro l
  induction l with
  | nil => rfl
  | cons a t ih =>
    by_cases ha : a.1 = k
    · rw [List.filter_cons, if_neg (by simp [ha])]
      exact ih
    · rw [List.filter_cons, if_pos (by simp [ha]), List.lookup_cons]
      rw [show (k == a.1) = false from beq_eq_false_iff_ne.mpr (Ne.symm ha)]
      exact ih

/-- C8: for every parser behaviour and disk state: if the index file is
absent, `load_path_index` returns the empty index and leaves the disk
untouched; if the file is present but fails to parse, it does not raise: it
returns the empty index, and on the resulting disk the original file is gone
while the `.bak` file holds the original content. -/
theorem claim8_load_path_index {α : Type}
    (parse : String → Option (List (String × α)))
    (disk : List (String × String)) :
    (disk.lookup PATH_INDEX_FILE = none →
        load_path_index parse disk = ([], disk)) ∧
      (∀ content, disk.lookup PATH_INDEX_FILE = some content →
        parse content = none →
        load_path_index parse disk =
          ([], (PATH_INDEX_BAK, content)
            :: disk.filter (fun kv => ¬ (kv.1 = PATH_INDEX_FILE))) ∧
        (load_path_index parse disk).2.lookup PATH_INDEX_FILE = none ∧
        (load_path_index parse disk).2.lookup PATH_INDEX_BAK = some content) := by
  constructor
  · intro h
    simp [load_path_index, h]
  · intro content h hp
    have he : load_path_index parse disk =
        ([], (PATH_INDEX_BAK, content)
          :: disk.filter (fun kv => ¬ (kv.1 = PATH_INDEX_FILE))) := by
      simp [load_path_index, h, hp]
    refine ⟨he, ?_, ?_⟩
    · rw [he]
      show ((PATH_INDEX_BAK, content)
        :: disk.filter (fun kv => ¬ (kv.1 = PATH_INDEX_FILE))).lookup
          PATH_INDEX_FILE = none
      rw [List.lookup_cons]
      rw [show (PATH_INDEX_FILE == PATH_INDEX_BAK) = false from by decide]
      exact lookup_filter_ne PATH_INDEX_FILE disk
    · rw [he]
      show ((PATH_INDEX_BAK, content)
        :: disk.filter (fun kv => ¬ (kv.1 = PATH_INDEX_FILE))).lookup
          PATH_INDEX_BAK = some content
      rw [List.lookup_cons]
      rw [show (PATH_INDEX_BAK == PATH_INDEX_BAK) = true from by simp]

/-- C8 witness: the corrupt-index and missing-index cases at concrete
inputs. -/
theorem claim8_witness :
    load_path_index (fun _ => (none : Option (List (String × Nat))))
        [(PATH_INDEX_FILE, "garbage")] =
      ([], [(PATH_INDEX_BAK, "garbage")]) ∧
    load_path_index (fun _ => (none : Option (List (String × Nat)))) [] =
      ([], []) := by
  have h := claim8_load_path_index
    (fun _ => (none : Option (List (String × Nat)))) [(PATH_INDEX_FILE, "garbage")]
  have h0 := claim8_load_path_index
    (fun _ => (none : Option (List (String × Nat)))) []
  constructor
  · have he := (h.2 "garbage" (by simp [List.lookup]) rfl).1
    rw [he]
    decide
  · exact h0.1 rfl

/-! ### Claim C3: `write_json_with_fallback` on a too-long primary path -/

/-- C3: for every primary path at or above the length threshold and every
write oracle: when the fallback write succeeds, the primary file is not
touched, the data lands at the fallback path, the fallback path is returned,
and exactly one fallback-log entry is appended carrying the supplied reason,
the original error (`path too long`) and both paths; when the fallback write
also fails, a single combined error describing both failures is raised. -/
theorem claim3_write_fallback {α : Type} (writeOk : String → Bool)
    (primary fallback fallback_reason : String) (data : α)
    (meta : List (String × String)) (fs : FS α)
    (hlong : _too_long primary 240 = true) (hne : primary ≠ fallback) :
    (writeOk fallback = true →
      write_json_with_fallback writeOk primary data fallback fallback_reason
          meta fs =
        Except.ok (fallback,
          ⟨(fallback, data) :: fs.files,
            fs.flog ++
              [⟨fallback_reason, "path too long", primary, fallback, meta⟩]⟩) ∧
      ((fallback, data) :: fs.files).lookup primary = fs.files.lookup primary) ∧
    (writeOk fallback = false →
      write_json_with_fallback writeOk primary data fallback fallback_reason
          meta fs =
        Except.error
          ("Failed writing both primary and fallback paths. Primary error: "
            ++ "path too long" ++ ". Fallback error: "
            ++ ("write failed: " ++ fallback))) := by
  constructor
  · intro hok
    constructor
    · simp [write_json_with_fallback, write_text_json, log_fallback, hlong, hok]
    · rw [List.lookup_cons]
      rw [show (primary == fallback) = false from beq_eq_false_iff_ne.mpr hne]
  · intro hbad
    simp [write_json_with_fallback, write_text_json, hlong, hbad]

/-- C3 witness: both branches at a concrete 240-character primary path. -/
theorem claim3_witness :
    write_json_with_fallback (fun _ => true)
        (String.mk (List.replicate 240 'p')) (0 : Nat) "standards/f.json"
        "standard_set_path_too_long_or_write_error" [] ⟨[], []⟩ =
      Except.ok ("standards/f.json",
        ⟨[("standards/f.json", 0)],
          [⟨"standard_set_path_too_long_or_write_error", "path too long",
            String.mk (List.replicate 240 'p'), "standards/f.json", []⟩]⟩) ∧
    write_json_with_fallback (fun _ => false)
        (String.mk (List.replicate 240 'p')) (0 : Nat) "standards/f.json"
        "standard_set_path_too_long_or_write_error" [] ⟨[], []⟩ =
      Except.error
        ("Failed writing both primary and fallback paths. Primary error: "
          ++ "path too long" ++ ". Fallback error: "
          ++ ("write failed: " ++ "standards/f.json")) := by
  have hlong : _too_long (String.mk (List.replicate 240 'p')) 240 = true := by
    simp only [_too_long, decide_eq_true_eq]
    show 240 ≤ (List.replicate 240 'p').length
    simp
  have hne : String.mk (List.replicate 240 'p') ≠ "standards/f.json" := by
    intro h
    have hlen := congrArg String.length h
    rw [show (String.mk (List.replicate 240 'p')).length = 240 from by simp [String.length]] at hlen
    exact absurd hlen (by decide)
  constructor
  · have h := ((claim3_write_fallback (fun _ => true)
      (String.mk (List.replicate 240 'p')) "standards/f.json"
      "standard_set_path_too_long_or_write_error" (0 : Nat) [] ⟨[], []⟩
      hlong hne).1 rfl).1
    rw [h]
    rfl
  · exact (claim3_write_fallback (fun _ => false)
      (String.mk (List.replicate 240 'p')) "standards/f.json"
      "standard_set_path_too_long_or_write_error" (0 : Nat) [] ⟨[], []⟩
      hlong hne).2 rfl

/-! ### Claim C7: the retry wrapper -/

theorem retryFrom_ok {fn : Nat → Except String String} {backoff : Rat}
    {retries fuel attempt : Nat} {r : String}
    (h : fn attempt = Except.ok r) :
    retryFrom fn backoff retries (fuel + 1) attempt =
      ⟨Except.ok r, 1, []⟩ := by
  rw [retryFrom, h]

theorem retryFrom_err_last {fn : Nat → Except String String} {backoff : Rat}
    {retries fuel attempt : Nat} {e : String}
    (h : fn attempt = Except.error e) (hge : ¬ attempt < retries) :
    retryFrom fn backoff retries (fuel + 1) attempt =
      ⟨Except.error e, 1, []⟩ := by
  rw [retryFrom, h]
  simp [hge]

theorem retryFrom_err_step {fn : Nat → Except String String} {backoff : Rat}
    {retries fuel attempt : Nat} {e : String}
    (h : fn attempt = Except.error e) (hlt : attempt < retries) :
    retryFrom fn backoff retries (fuel + 1) attempt =
      ⟨(retryFrom fn backoff retries fuel (attempt + 1)).result,
        (retryFrom fn backoff retries fuel (attempt + 1)).calls + 1,
        backoff * (attempt : Rat)
          :: (retryFrom fn backoff retries fuel (attempt + 1)).sleeps⟩ := by
  rw [retryFrom, h]
  simp [hlt]

theorem retryFrom_allFail (fn : Nat → Except String String) (backoff : Rat)
    (retries : Nat) (err : Nat → String)
    (herr : ∀ i, 1 ≤ i → i ≤ retries → fn i = Except.error (err i)) :
    ∀ fuel attempt, fuel + attempt = retries + 1 → 1 ≤ fuel → 1 ≤ attempt →
      retryFrom fn backoff retries fuel attempt =
        ⟨Except.error (err retries), fuel,
          (List.range' attempt (fuel - 1)).map
            (fun i => backoff * (i : Rat))⟩ := by
  intro fuel
  induction fuel with
  | zero => intro attempt _ h2 _; exact absurd h2 (by omega)
  | succ f ih =>
    intro attempt hsum _ hatt
    have hle : attempt ≤ retries := by omega
    have herrA := herr attempt hatt hle
    cases Nat.eq_zero_or_pos f with
    | inl hf0 =>
      subst hf0
      have hak : attempt = retries := by omega
      rw [retryFrom_err_last herrA (by omega), hak]
      simp
    | inr hfpos =>
      have hlt : attempt < retries := by omega
      rw [retryFrom_err_step herrA hlt]
      rw [ih (attempt + 1) (by omega) hfpos (by omega)]
      have hr : List.range' attempt (f + 1 - 1) =
          attempt :: List.range' (attempt + 1) (f - 1) := by
        obtain ⟨g, rfl⟩ : ∃ g, f = g + 1 := ⟨f - 1, by omega⟩
        rfl
      rw [hr]
      simp

theorem retryFrom_success (fn : Nat → Except String String) (backoff : Rat)
    (retries : Nat) (k : Nat) (r : String) (hk : k ≤ retries)
    (hok : fn k = Except.ok r)
    (herr : ∀ i, 1 ≤ i → i < k → ∃ e, fn i = Except.error e) :
    ∀ d attempt fuel, attempt + d = k → fuel + attempt = retries + 1 →
      1 ≤ attempt →
      retryFrom fn backoff retries fuel attempt =
        ⟨Except.ok r, d + 1,
          (List.range' attempt d).map (fun i => backoff * (i : Rat))⟩ := by
  intro d
  induction d with
  | zero =>
    intro attempt fuel hak hsum hatt
    have hik : attempt = k := by omega
    subst hik
    obtain ⟨f, rfl⟩ : ∃ f, fuel = f + 1 := ⟨fuel - 1, by omega⟩
    rw [retryFrom_ok hok]
    simp
  | succ d ih =>
    intro attempt fuel hak hsum hatt
    have hlt : attempt < k := by omega
    obtain ⟨e, he⟩ := herr attempt hatt hlt
    obtain ⟨f, rfl⟩ : ∃ f, fuel = f + 1 := ⟨fuel - 1, by omega⟩
    rw [retryFrom_err_step he (by omega)]
    rw [ih (attempt + 1) f (by omega) (by omega) (by omega)]
    have hr : List.range' attempt (d + 1) =
        attempt :: List.range' (attempt + 1) d := rfl
    rw [hr]
    simp

/-- C7: for every request oracle failing with a retryable error on every
attempt, `with_retries` invokes it exactly `retries` times (default 3),
sleeps `backoff * attemptNumber` seconds between consecutive attempts
(attempts 1 through `retries - 1`), and surfaces the failure of the final
attempt; for a request succeeding on attempt `k ≤ retries`, it returns that
response after exactly `k` invocations. -/
theorem claim7_with_retries (fn : Nat → Except String String) (retries : Nat)
    (backoff : Rat) (err : Nat → String) (hret : 1 ≤ retries) :
    ((∀ i, 1 ≤ i → i ≤ retries → fn i = Except.error (err i)) →
      with_retries fn retries backoff =
        ⟨Except.error (err retries), retries,
          (List.range' 1 (retries - 1)).map (fun i => backoff * (i : Rat))⟩) ∧
    (∀ k r, 1 ≤ k → k ≤ retries → fn k = Except.ok r →
      (∀ i, 1 ≤ i → i < k → ∃ e, fn i = Except.error e) →
      with_retries fn retries backoff =
        ⟨Except.ok r, k,
          (List.range' 1 (k - 1)).map (fun i => backoff * (i : Rat))⟩) := by
  constructor
  · intro herr
    rw [with_retries]
    rw [retryFrom_allFail fn backoff retries err herr retries 1 (by omega)
      (by omega) (by omega)]
  · intro k r hk1 hk2 hok herr
    rw [with_retries]
    have h := retryFrom_success fn backoff retries k r hk2 hok herr
      (k - 1) 1 retries (by omega) (by omega) (by omega)
    rw [h]
    have : k - 1 + 1 = k := by omega
    rw [this]

/-- C7 witness: the all-fail trace with the default bound 3 and default
backoff 0.6, and a success-on-attempt-2 trace. -/
theorem claim7_witness :
    with_retries (fun _ => Except.error "E") 3 ((3 : Rat) / 5) =
      ⟨Except.error "E", 3,
        (List.range' 1 2).map (fun i => (3 : Rat) / 5 * (i : Rat))⟩ ∧
    with_retries (fun i => if i = 2 then Except.ok "resp"
        else Except.error "E") 3 ((3 : Rat) / 5) =
      ⟨Except.ok "resp", 2,
        (List.range' 1 1).map (fun i => (3 : Rat) / 5 * (i : Rat))⟩ := by
  constructor
  · exact (claim7_with_retries (fun _ => Except.error "E") 3 ((3 : Rat) / 5)
      (fun _ => "E") (by omega)).1 (fun i _ _ => rfl)
  · refine (claim7_with_retries
      (fun i => if i = 2 then Except.ok "resp" else Except.error "E") 3
      ((3 : Rat) / 5) (fun _ => "E") (by omega)).2 2 "resp" (by omega)
      (by omega) (by decide) ?_
    intro i h1 h2
    have : i = 1 := by omega
    subst this
    exact ⟨"E", rfl⟩

/-! ### Claim C4: the overwrite-skip path of the driver -/

theorem toNat_ofNat_ascii {n : Nat} (h1 : 97 ≤ n) (h2 : n ≤ 122) :
    (Char.ofNat n).toNat = n := by
  have hv : n.isValidChar := Or.inl (by omega)
  unfold Char.ofNat
  rw [dif_pos hv]
  unfold Char.ofNatAux
  simp [Char.toNat, UInt32.toNat, BitVec.toNat_ofNatLt]

theorem pyLower_ne_slash {c : Char} (h : c ≠ '/') : pyLower c ≠ '/' := by
  rw [pyLower]
  by_cases hc : 65 ≤ c.toNat ∧ c.toNat ≤ 90
  · rw [if_pos hc]
    intro heq
    have ht := congrArg Char.toNat heq
    rw [toNat_ofNat_ascii (by omega) (by omega)] at ht
    have : ('/').toNat = 47 := rfl
    omega
  · rw [if_neg hc]
    exact h

theorem not_slash_of_good {c : Char}
    (h : isLowerAlnum c = true ∨ c = '-') : c ≠ '/' := by
  rcases h with h | h
  · intro hc
    subst hc
    simp [isLowerAlnum] at h
  · intro hc
    rw [hc] at h
    exact absurd h (by decide)

theorem short_no_slash (x : String) (n : Nat) :
    ∀ c ∈ (_short x n).toList, c ≠ '/' := by
  intro c hc
  rw [_short] at hc
  by_cases hx : x = ""
  · rw [if_pos hx] at hc
    have h7 : ("unnamed" : String).toList = ['u', 'n', 'n', 'a', 'm', 'e', 'd'] := rfl
    rw [h7] at hc
    simp only [List.mem_cons, List.not_mem_nil, or_false] at hc
    rcases hc with rfl | rfl | rfl | rfl | rfl | rfl | rfl <;> decide
  · rw [if_neg hx] at hc
    have hc' : c ∈ (slug x).toList.take n := hc
    have hmem : c ∈ (slug x).toList := List.mem_of_mem_take hc'
    exact not_slash_of_good ((goodSlug_slug x).2.1 c hmem)

theorem lowerStr_no_slash {s : String}
    (h : ∀ c ∈ s.toList, c ≠ '/') : ∀ c ∈ (lowerStr s).toList, c ≠ '/' := by
  intro c hc
  have hc' : c ∈ s.toList.map pyLower := hc
  rw [List.mem_map] at hc'
  obtain ⟨a, ha, rfl⟩ := hc'
  exact pyLower_ne_slash (h a ha)

theorem takeWhile_append_all {p : Char → Bool} :
    ∀ {l₁ l₂ : List Char}, (∀ a ∈ l₁, p a = true) →
      (l₁ ++ l₂).takeWhile p = l₁ ++ l₂.takeWhile p := by
  intro l₁
  induction l₁ with
  | nil => intro l₂ _; rfl
  | cons a t ih =>
    intro l₂ h
    rw [List.cons_append, List.takeWhile_cons,
      if_pos (h a (List.mem_cons_self a t)), List.cons_append,
      ih (fun x hx => h x (List.mem_cons_of_mem a hx))]

theorem baseName_append (dir b : String) (hb : ∀ c ∈ b.toList, c ≠ '/') :
    baseName (dir ++ "/" ++ b) = b := by
  rw [baseName]
  have h1 : (dir ++ "/" ++ b).toList = dir.data ++ '/' :: b.data := by
    show (dir ++ "/" ++ b).data = dir.data ++ '/' :: b.data
    rw [String.data_append, String.data_append]
    simp
  rw [h1]
  have h2 : (dir.data ++ '/' :: b.data).reverse =
      b.data.reverse ++ '/' :: dir.data.reverse := by
    simp
  rw [h2]
  have h3 : ∀ a ∈ b.data.reverse, (!(decide (a = '/'))) = true := by
    intro a ha
    have : a ∈ b.toList := by simpa using ha
    simp [hb a this]
  rw [takeWhile_append_all h3, List.takeWhile_cons]
  rw [if_neg (by simp)]
  rw [List.append_nil, List.reverse_reverse]

theorem out_name_no_slash (s : SetSummary)
    (hslash : ∀ c ∈ (computed_set_id s).toList, c ≠ '/') :
    ∀ c ∈ (computed_out_name s).toList, c ≠ '/' := by
  intro c hc
  rw [computed_out_name, safe_filename] at hc
  have hc' : c ∈ (_short (computed_grade_label s) 40).data ++ "__".data
      ++ (lowerStr (computed_set_id s)).data ++ ".json".data := by
    have : (_short (computed_grade_label s) 40 ++ "__"
        ++ lowerStr (computed_set_id s) ++ ".json").data =
        (_short (computed_grade_label s) 40).data ++ "__".data
          ++ (lowerStr (computed_set_id s)).data ++ ".json".data := by
      rw [String.data_append, String.data_append, String.data_append]
    rw [← this]
    exact hc
  simp only [List.mem_append] at hc'
  rcases hc' with ((h1 | h1) | h1) | h1
  · exact short_no_slash (computed_grade_label s) 40 c h1
  · simp only [List.mem_cons, List.not_mem_nil, or_false] at h1
    rcases h1 with rfl | rfl <;> decide
  · exact lowerStr_no_slash hslash c h1
  · simp only [List.mem_cons, List.not_mem_nil, or_false] at h1
    rcases h1 with rfl | rfl | rfl | rfl | rfl <;> decide

theorem baseName_out_file (ctx : JurCtx) (s : SetSummary)
    (hslash : ∀ c ∈ (computed_set_id s).toList, c ≠ '/') :
    baseName (computed_out_file ctx s) = computed_out_name s := by
  rw [computed_out_file]
  exact baseName_append _ _ (out_name_no_slash s hslash)

theorem processSet_skip {α : Type} (ctx : JurCtx) (s : SetSummary)
    (existsF : String → Bool) (fetchRes : Except String α)
    (writeOk : String → Bool) (fs : FS α)
    (hsid : ¬ computed_set_id s = "")
    (hex : existsF (computed_out_file ctx s) = true) :
    processSet ctx s false existsF fetchRes writeOk fs =
      ⟨false, fs, some
        ⟨computed_set_id s, computed_out_file ctx s, ctx.jur_id,
          ctx.jur_slug_short, ctx.jur_title, computed_subject s,
          computed_grade_label s, computed_out_name s, false⟩⟩ := by
  simp [processSet, hsid, hex]

theorem processSet_fresh {α : Type} (ctx : JurCtx) (s : SetSummary)
    (overwrite : Bool) (existsF : String → Bool) (writeOk : String → Bool)
    (fs : FS α) (full : α)
    (hsid : ¬ computed_set_id s = "")
    (hnex : existsF (computed_out_file ctx s) = false)
    (hlen : _too_long (computed_out_file ctx s) 240 = false)
    (hwr : writeOk (computed_out_file ctx s) = true) :
    processSet ctx s overwrite existsF (Except.ok full) writeOk fs =
      ⟨true, ⟨(computed_out_file ctx s, full) :: fs.files, fs.flog⟩, some
        ⟨computed_set_id s, computed_out_file ctx s, ctx.jur_id,
          ctx.jur_slug_short, ctx.jur_title, computed_subject s,
          computed_grade_label s, baseName (computed_out_file ctx s),
          false⟩⟩ := by
  simp [processSet, hsid, hnex, write_json_with_fallback, write_text_json,
    hlen, hwr]

theorem lookup_update_path_index (sid : String) (e : IndexEntry)
    (idx : List (String × IndexEntry)) (hsid : e.set_id = sid) :
    (update_path_index e idx).lookup sid = some e := by
  rw [update_path_index, hsid, List.lookup_cons]
  simp

/-- C4 counterexample: the claim fails when the set id contains a path
separator.  With set id `"A/B"` (no education levels, no title), the primary
output file is `standards/jur/unspecified/a-b__a/b.json`; the skip path
records `filename = "a-b__a/b.json"` while a fresh successful primary-path
run records `written_path.name = "b.json"`, so the two index entries
differ. -/
theorem claim4_cex :
    (processSet ⟨"J1", "jur", "Jur"⟩ ⟨some "A/B", none, none, none⟩ false
        (fun _ => true) (Except.ok "payload") (fun _ => true)
        ⟨[], []⟩).indexEntry ≠
      (processSet ⟨"J1", "jur", "Jur"⟩ ⟨some "A/B", none, none, none⟩ false
        (fun _ => false) (Except.ok "payload") (fun _ => true)
        ⟨[], []⟩).indexEntry := by
  decide

/-- C4 (amended): for every set summary whose (nonempty) computed set id
contains no `/`, if the computed primary output file already exists and
overwrite was not requested, the driver performs no fetch and no write, and
the index entry it (re)writes is identical to the one a fresh successful
primary-path run would produce — in particular `used_fallback = false` and
`path` equal to the primary path — regardless of what the path index
previously recorded for that set id.  (When the set id contains `/` the two
entries differ in their `filename` field, as the counterexample shows.) -/
theorem claim4_skip_entry {α : Type} (ctx : JurCtx) (s : SetSummary)
    (existsF existsF' : String → Bool) (writeOk : String → Bool)
    (fs fs' : FS α) (full : α)
    (hsid : ¬ computed_set_id s = "")
    (hslash : ∀ c ∈ (computed_set_id s).toList, c ≠ '/')
    (hex : existsF (computed_out_file ctx s) = true)
    (hnex : existsF' (computed_out_file ctx s) = false)
    (hlen : _too_long (computed_out_file ctx s) 240 = false)
    (hwr : writeOk (computed_out_file ctx s) = true) :
    (processSet ctx s false existsF (Except.ok full) writeOk fs).didFetch
        = false ∧
      (processSet ctx s false existsF (Except.ok full) writeOk fs).fs = fs ∧
      (processSet ctx s false existsF (Except.ok full) writeOk fs).indexEntry
        = (processSet ctx s false existsF' (Except.ok full) writeOk
            fs').indexEntry ∧
      ∃ e, (processSet ctx s false existsF (Except.ok full) writeOk
            fs).indexEntry = some e ∧
        e.used_fallback = false ∧ e.path = computed_out_file ctx s ∧
        ∀ idx, (update_path_index e idx).lookup (computed_set_id s) =
          some e := by
  rw [processSet_skip ctx s existsF (Except.ok full) writeOk fs hsid hex]
  rw [processSet_fresh ctx s false existsF' writeOk fs' full hsid hnex hlen hwr]
  refine ⟨rfl, rfl, ?_, ?_⟩
  · show some _ = some _
    rw [baseName_out_file ctx s hslash]
  · refine ⟨_, rfl, rfl, rfl, ?_⟩
    intro idx
    exact lookup_update_path_index (computed_set_id s) _ idx rfl

/-- C4 witness: the amended statement at a concrete jurisdiction and set
summary with a slash-free set id. -/
theorem claim4_witness :
    (processSet ⟨"J1", "california", "California"⟩
        ⟨some "D100", some "Math", some ["06"], none⟩ false (fun _ => true)
        (Except.ok "full") (fun _ => true) (⟨[], []⟩ : FS String)).didFetch
        = false ∧
      (processSet ⟨"J1", "california", "California"⟩
        ⟨some "D100", some "Math", some ["06"], none⟩ false (fun _ => true)
        (Except.ok "full") (fun _ => true) (⟨[], []⟩ : FS String)).fs
        = ⟨[], []⟩ ∧
      (processSet ⟨"J1", "california", "California"⟩
        ⟨some "D100", some "Math", some ["06"], none⟩ false (fun _ => true)
        (Except.ok "full") (fun _ => true) (⟨[], []⟩ : FS String)).indexEntry
        = (processSet ⟨"J1", "california", "California"⟩
            ⟨some "D100", some "Math", some ["06"], none⟩ false
            (fun _ => false) (Except.ok "full") (fun _ => true)
            (⟨[], []⟩ : FS String)).indexEntry := by
  have h := claim4_skip_entry ⟨"J1", "california", "California"⟩
    ⟨some "D100", some "Math", some ["06"], none⟩ (fun _ => true)
    (fun _ => false) (fun _ => true) (⟨[], []⟩ : FS String)
    (⟨[], []⟩ : FS String) "full" (by decide) (by decide) rfl rfl
    (by decide) rfl
  exact ⟨h.1, h.2.1, h.2.2.1⟩

end StandardsPull
